import Mathlib

/-!
Verification development for the `mudrets_bot` repository: a Markov-chain
chat bot with two source variants, `markov.py` (in-memory dict persisted to
JSON) and `new_bot.py` (SQLite-backed store).  The shallow embedding below
translates the chain store, the learner (`on_message` / `build_markov_chain`),
the generators (`generate_markov_text` / `generate_text`), the persistence
pair (`save_markov_chain` / `load_markov_chain`), and the statistics queries
(`wisdom` / `wisdom_command`, `update_stat` / `get_stat`).

Modelling conventions:
* Both sources fix `MARKOV_ORDER = 2`, so a context is a pair of tokens
  (`Ctx = String × String`), matching `tuple(text[i:i+MARKOV_ORDER])`.
* Python dicts preserve insertion order; the chain store is an association
  list with distinct keys, updated in place (`addObservation`).
* `random.choice(l)` is modelled by `pyChoice l r` where `r` is drawn from an
  ambient stream `rand : Nat → Nat` of random naturals; `pyChoice` returns
  `none` exactly when `l` is empty, which in Python raises `IndexError`.
* Fallible Python code (uncaught exceptions) is modelled with `Option`:
  `none` is an unstructured crash.
-/

namespace MudretsBot

/-- `MARKOV_ORDER = 2` in both sources. -/
def MARKOV_ORDER : Nat := 2

/-- A lookup context: an ordered pair of tokens (`MARKOV_ORDER = 2`). -/
abbrev Ctx := String × String

/-- The chain store: insertion-ordered mapping from contexts to successor
lists, as maintained in the Python dict `markov_chain` (and, key-serialized,
in the `chain` table of `new_bot.py`). -/
abbrev Chain := List (Ctx × List String)

/-- Dict lookup `chain[key]` / `key in chain`:
first (unique) binding of `k`, if any. -/
def chainLookup : Chain → Ctx → Option (List String)
  | [], _ => none
  | e :: rest, k => if e.1 = k then some e.2 else chainLookup rest k

/-- One learning step, from `on_message` (markov.py lines 122-126) and
equally `build_markov_chain` (new_bot.py lines 96-104):

    if key not in markov_chain: markov_chain[key] = []
    if next not in markov_chain[key]: markov_chain[key].append(next)

A new key is appended at the end (dict insertion order); an existing key's
successor list gains `nxt` at the end unless already present. -/
def addObservation : Chain → Ctx → String → Chain
  | [], k, nxt => [(k, [nxt])]
  | e :: rest, k, nxt =>
    if e.1 = k then
      (if nxt ∈ e.2 then e else (e.1, e.2 ++ [nxt])) :: rest
    else
      e :: addObservation rest k nxt

/-- The observation list swept out by the learner's loop
`for i in range(len(text) - MARKOV_ORDER)` with
`key = tuple(text[i:i+MARKOV_ORDER])` and `next = text[i + MARKOV_ORDER]`
(markov.py lines 121-126, new_bot.py lines 91-93).  The `getD` defaults are
never reached: every index is below `text.length`. -/
def learnObs (text : List String) : List (Ctx × String) :=
  (List.range (text.length - MARKOV_ORDER)).map
    (fun i => ((text.getD i "", text.getD (i + 1) ""), text.getD (i + 2) ""))

/-- The chain-updating part of `on_message` / `build_markov_chain`: append
the empty-string sentinel to the split words, then fold every observation
into the store. -/
def onMessageChain (chain : Chain) (words : List String) : Chain :=
  (learnObs (words ++ [""])).foldl (fun c o => addObservation c o.1 o.2) chain

/-- `random.choice(l)` given a random natural `r`: an element of `l`, `none`
(Python: `IndexError`) iff `l` is empty.  The index `r % l.length` ranges
uniformly over all positions when `r` does. -/
def pyChoice (l : List α) (r : Nat) : Option α :=
  l.get? (r % l.length)

/-- `tuple(text[-MARKOV_ORDER:])` for a list of length ≥ 2 (the generators
only apply it to texts that start from a 2-token seed and grow). -/
def lastTwoP (l : List String) : Ctx :=
  (l.getD (l.length - 2) "", l.getD (l.length - 1) "")

/-- The generation loop of `generate_markov_text` (markov.py lines 83-88):
up to `fuel` times, look up the last two tokens; if absent, stop; otherwise
choose a random successor and append it.  (This variant has no explicit
sentinel stop; after the sentinel is appended the next lookup misses.)
`step` indexes into the random stream. -/
def genMarkovLoop (chain : Chain) (rand : Nat → Nat) :
    Nat → Nat → List String → Option (List String)
  | 0, _, text => some text
  | fuel + 1, step, text =>
    match chainLookup chain (lastTwoP text) with
    | none => some text
    | some ws =>
      match pyChoice ws (rand step) with
      | none => none
      | some w => genMarkovLoop chain rand fuel (step + 1) (text ++ [w])

/-- `generate_markov_text` at the token level: seed with a uniformly random
key (`random.choice(list(chain.keys()))`, `IndexError` → `none` on an empty
chain), then run the loop. -/
def generate_markov_toks (chain : Chain) (rand : Nat → Nat) (maxWords : Nat) :
    Option (List String) :=
  match pyChoice (chain.map (fun e => e.1)) (rand 0) with
  | none => none
  | some k => genMarkovLoop chain rand maxWords 1 [k.1, k.2]

/-- `generate_markov_text` (markov.py lines 79-90): the token sequence joined
by single spaces, with no trimming. -/
def generate_markov_text (chain : Chain) (rand : Nat → Nat) (maxWords : Nat) :
    Option String :=
  (generate_markov_toks chain rand maxWords).map (String.intercalate " ")

/-- `get_random_key` (new_bot.py lines 106-112): a random existing key
(`ORDER BY random() LIMIT 1`), or the fallback `("start", "here")` when the
table is empty.  Stored keys are `str(key)` strings decoded by `eval`; the
round-trip `pyEvalPair (pyReprPair k) = some k` proved below justifies
modelling the store at the decoded-tuple level. -/
def get_random_key (chain : Chain) (r : Nat) : Ctx :=
  match pyChoice (chain.map (fun e => e.1)) r with
  | some k => k
  | none => ("start", "here")

/-- The generation loop of `generate_text` (new_bot.py lines 119-131): like
the markov.py loop, but after appending the chosen word it additionally stops
when that word is falsy (the empty-string sentinel). -/
def genNewbotLoop (chain : Chain) (rand : Nat → Nat) :
    Nat → Nat → List String → Option (List String)
  | 0, _, result => some result
  | fuel + 1, step, result =>
    match chainLookup chain (lastTwoP result) with
    | none => some result
    | some ws =>
      match pyChoice ws (rand step) with
      | none => none
      | some w =>
        if w = "" then some (result ++ [w])
        else genNewbotLoop chain rand fuel (step + 1) (result ++ [w])

/-- `generate_text` at the token level (new_bot.py lines 114-131). -/
def generate_text_toks (chain : Chain) (rand : Nat → Nat) (maxWords : Nat) :
    Option (List String) :=
  let k := get_random_key chain (rand 0)
  genNewbotLoop chain rand maxWords 1 [k.1, k.2]

/-- Python `str.isspace` characters produced by whitespace handling that
`str.strip()` removes (ASCII fragment; tokens come from `str.split()` and
contain none of these, but the model does not rely on that). -/
def isPySpace (c : Char) : Bool :=
  c = ' ' || c = '\t' || c = '\n' || c = '\r' || c = '\x0b' || c = '\x0c'

/-- `str.strip()` on a character list: drop whitespace from both ends. -/
def pyStripChars (l : List Char) : List Char :=
  (((l.dropWhile isPySpace).reverse.dropWhile isPySpace)).reverse

/-- `str.strip()`. -/
def pyStrip (s : String) : String :=
  String.mk (pyStripChars s.toList)

/-- `generate_text` (new_bot.py line 133): `" ".join(result).strip()`. -/
def generate_text (chain : Chain) (rand : Nat → Nat) (maxWords : Nat) :
    Option String :=
  (generate_text_toks chain rand maxWords).map
    (fun toks => pyStrip (String.intercalate " " toks))

/-! ### Persistence: `str(key)` serialization and `eval(key)` deserialization

`save_markov_chain` (markov.py lines 38-49) writes the dict with keys
`str(key)` — Python's `repr` of a 2-tuple of strings — and JSON-dumps it
together with the two counters.  `load_markov_chain` (lines 53-75) JSON-loads
and applies `eval` to every key.  JSON round-trips string keys, string-list
values, object order and integers losslessly, so the model elides the JSON
layer and embeds the key encoding/decoding, which is where fidelity could
fail.  Python's `repr` of a string additionally hex-escapes unprintable
characters; the embedding emits such characters literally, which `eval` also
reads back verbatim, so both encodings are inverted by the same grammar. -/

/-- Quote choice of Python `repr` on strings: double quotes when the string
contains a single quote but no double quote, single quotes otherwise. -/
def quoteFor (s : List Char) : Char :=
  if '\'' ∈ s ∧ ¬ ('"' ∈ s) then '"' else '\''

/-- Escape of one character in a Python string literal delimited by `q`. -/
def escChar (q : Char) (c : Char) : List Char :=
  if c = '\\' ∨ c = q then ['\\', c]
  else if c = '\n' then ['\\', 'n']
  else if c = '\r' then ['\\', 'r']
  else if c = '\t' then ['\\', 't']
  else [c]

/-- Escape of a string body for a literal delimited by `q`. -/
def escBody (q : Char) : List Char → List Char
  | [] => []
  | c :: cs => escChar q c ++ escBody q cs

/-- Python `repr` of a string, as a character list. -/
def pyReprStrChars (s : List Char) : List Char :=
  quoteFor s :: (escBody (quoteFor s) s ++ [quoteFor s])

/-- Reading a Python string literal after its opening quote `q`: consume
until the closing `q`, decoding escapes; returns the body and the rest. -/
def unesc (q : Char) : List Char → Option (List Char × List Char)
  | [] => none
  | c :: cs =>
    if c = q then some ([], cs)
    else if c = '\\' then
      match cs with
      | [] => none
      | d :: ds =>
        let e : Char :=
          if d = 'n' then '\n' else if d = 'r' then '\r'
          else if d = 't' then '\t' else d
        match unesc q ds with
        | none => none
        | some (body, rest) => some (e :: body, rest)
    else
      match unesc q cs with
      | none => none
      | some (body, rest) => some (c :: body, rest)

/-- Reading a Python string literal: an opening quote, then its body. -/
def parseLit : List Char → Option (List Char × List Char)
  | [] => none
  | c :: cs => if c = '\'' ∨ c = '"' then unesc c cs else none

/-- `str(key)` for a 2-tuple key:
`"(" + repr(a) + ", " + repr(b) + ")"`. -/
def pyReprPairChars (a b : List Char) : List Char :=
  '(' :: (pyReprStrChars a ++ (',' :: ' ' :: (pyReprStrChars b ++ [')'])))

/-- `eval(key)` restricted to the grammar `save_markov_chain` emits: a
parenthesized pair of Python string literals separated by a comma-space. -/
def pyEvalPairChars (l : List Char) : Option (List Char × List Char) :=
  match l with
  | '(' :: rest =>
    match parseLit rest with
    | none => none
    | some (a, rest1) =>
      match rest1 with
      | ',' :: ' ' :: rest2 =>
        match parseLit rest2 with
        | none => none
        | some (b, rest3) => if rest3 = [')'] then some (a, b) else none
      | _ => none
  | _ => none

/-- `str(key)` on `Ctx`. -/
def pyReprPair (k : Ctx) : String :=
  String.mk (pyReprPairChars k.1.toList k.2.toList)

/-- `eval(key)` on the serialized form of a `Ctx`. -/
def pyEvalPair (s : String) : Option Ctx :=
  (pyEvalPairChars s.toList).map (fun p => (String.mk p.1, String.mk p.2))

/-- The Model: the chain store and the two counters (markov.py globals
`markov_chain`, `total_messages`, `generated_messages`). -/
structure Model where
  chain : Chain
  total_messages : Nat
  generated_messages : Nat
deriving DecidableEq

/-- `save_markov_chain` (markov.py lines 38-49): the serialized snapshot —
`{str(key): value}` entries in insertion order, plus the two counters. -/
def save_markov_chain (m : Model) : List (String × List String) × Nat × Nat :=
  (m.chain.map (fun e => (pyReprPair e.1, e.2)), m.total_messages,
    m.generated_messages)

/-- `load_markov_chain` (markov.py lines 53-75) on a present snapshot:
`{eval(key): value}` entries plus the counters; `none` models an `eval`
failure on an undecodable key. -/
def load_markov_chain (d : List (String × List String) × Nat × Nat) :
    Option Model :=
  match d.1.mapM (fun e => (pyEvalPair e.1).map (fun k => (k, e.2))) with
  | none => none
  | some chain => some ⟨chain, d.2.1, d.2.2⟩

/-! ### Statistics -/

/-- The `stats` table of new_bot.py: rows `(key, value)`. -/
abbrev Stats := List (String × Int)

/-- `update_stat` (new_bot.py lines 73-81): an SQL `UPDATE ... WHERE key = k`.
Rows matching `k` get the new value; when no row matches, nothing happens —
the statement never inserts. -/
def update_stat (stats : Stats) (key : String) (v : Int) : Stats :=
  stats.map (fun e => if e.1 = key then (e.1, v) else e)

/-- `get_stat` (new_bot.py lines 83-86): `scalar() or 0` — the stored value,
or 0 when the row is absent (or stores 0). -/
def get_stat (stats : Stats) (key : String) : Int :=
  match stats.find? (fun e => e.1 == key) with
  | some e => e.2
  | none => 0

/-- The counter update of `handle_message` (new_bot.py lines 162-163):
`total = await get_stat("total_messages") + 1;
await update_stat("total_messages", total)`. -/
def handle_message_count (stats : Stats) : Stats :=
  update_stat stats "total_messages" (get_stat stats "total_messages" + 1)

/-- The `wisdom` handler (markov.py lines 94-107): reports the two counters,
`len(markov_chain)`, the summed successor-list lengths, and the variability
coefficient `chain_size / total_words`.  The division is unguarded: an empty
chain raises `ZeroDivisionError`, modelled as `none`.  The float quotient is
modelled as the exact rational it approximates. -/
def wisdom (chain : Chain) (total gen : Nat) :
    Option (Nat × Nat × Nat × Nat × ℚ) :=
  let total_words := chain.length
  let chain_size := (chain.map (fun e => e.2.length)).sum
  if total_words = 0 then none
  else some (total, gen, total_words, chain_size,
    (chain_size : ℚ) / (total_words : ℚ))

/-- Number of occurrences of a character in a character list (SQL
`length(s) - length(replace(s, c, ''))`). -/
def countChar (c : Char) (l : List Char) : Nat :=
  (l.filter (fun x => x = c)).length

/-- The comma-space-joined `repr`s inside Python's `str` of a string list. -/
def reprJoin : List String → List Char
  | [] => []
  | [t] => pyReprStrChars t.toList
  | t :: ts => pyReprStrChars t.toList ++ (',' :: ' ' :: reprJoin ts)

/-- Python `str` of a list of strings, as stored in the `next_words` column
by `build_markov_chain` (new_bot.py lines 102, 104): `"['a', 'b']"`. -/
def pyReprListChars (l : List String) : List Char :=
  '[' :: (reprJoin l ++ [']'])

/-- The `chain_size` aggregate of `wisdom_command` (new_bot.py lines
142-147): per row, SQL computes
`length(next_words) - length(replace(next_words, ',', '')) + 1`, i.e. the
number of commas in the serialized successor list plus one, summed over all
rows (an empty table sums to NULL, displayed as 0). -/
def chain_size_db (chain : Chain) : Nat :=
  (chain.map (fun e => countChar ',' (pyReprListChars e.2) + 1)).sum

/-- The numbers reported by `wisdom_command` (new_bot.py lines 136-157):
the two counters, `count(chain.key)`, the comma-counting `chain_size`
aggregate, and the guarded variability
`chain_size / chain_count if chain_count > 0 else 0` (line 149). -/
def wisdom_command (chain : Chain) (total gen : Nat) :
    Nat × Nat × Nat × Nat × ℚ :=
  (total, gen, chain.length, chain_size_db chain,
    if 0 < chain.length then
      (chain_size_db chain : ℚ) / (chain.length : ℚ)
    else 0)

/-! ### Theorems -/

/-- C1 (counterexample).  On an empty model, `generate_text` (new_bot.py)
does not fail with an `EmptyModel` error: it silently returns the fabricated
string `"start here"` from `get_random_key`'s fallback seed; and
`generate_markov_text` (markov.py) crashes with an unstructured `IndexError`
(`none`) rather than a structured `EmptyModel` error. -/
theorem c1_counterexample :
    generate_text [] (fun _ => 0) 100 = some "start here" ∧
    generate_markov_text [] (fun _ => 0) 100 = none := by
  constructor
  · decide
  · rfl

/-- C1 (amended).  Calling generate on a Model with zero learned messages
never produces an `EmptyModel` error (no such error exists in the code): for
every random stream and word limit, the JSON variant crashes with an
unstructured `IndexError` from `random.choice` on the empty key list
(modelled `none`), and the DB variant silently returns the fabricated string
`"start here"` obtained from `get_random_key`'s hard-coded fallback seed. -/
theorem c1_empty_model :
    (∀ (rand : Nat → Nat) (maxWords : Nat),
        generate_markov_text [] rand maxWords = none) ∧
    (∀ (rand : Nat → Nat) (maxWords : Nat),
        generate_text [] rand maxWords = some "start here") := by
  constructor
  · intro rand maxWords
    rfl
  · intro rand maxWords
    cases maxWords with
    | zero => rfl
    | succ n => rfl

/-- C2 (code bug).  In new_bot.py, the "messages learned" counter is NOT one
greater after `handle_message`'s counter update when the stats table has no
`total_messages` row (the state `init_db` creates: the table is built empty
and no code ever inserts a row).  `update_stat` runs an SQL `UPDATE` that
matches no row, so the whole update is a no-op and `get_stat` still reads 0
afterwards, not 1. -/
theorem c2_counter_not_incremented :
    handle_message_count [] = [] ∧
    get_stat (handle_message_count []) "total_messages" = 0 :=
  ⟨rfl, rfl⟩

/-- C5.  `add_observation` is idempotent: adding the same (context, token)
observation twice leaves the chain store — in particular the successor list
of that context — exactly as adding it once. -/
theorem c5_add_observation_idempotent (c : Chain) (k : Ctx) (t : String) :
    addObservation (addObservation c k t) k t = addObservation c k t := by
  induction c with
  | nil => simp [addObservation]
  | cons e rest ih =>
    by_cases h : e.1 = k
    · by_cases ht : t ∈ e.2
      · simp [addObservation, h, ht]
      · simp [addObservation, h, ht]
    · simp [addObservation, h, ih]

/-- C4.  The learner sweeps exactly `L − N` windows over a tokenized message
of length `L` (sentinel included, `N = MARKOV_ORDER = 2`): observation `i`
has context `(tokens[i], tokens[i+1])` and next token `tokens[i+2]`; and a
message shorter than `N + 1` tokens produces no observations — learning it
is a no-op on the chain store, not an error. -/
theorem c4_learner_coverage (words : List String) :
    ((learnObs (words ++ [""])).length =
      (words ++ [""]).length - MARKOV_ORDER) ∧
    (∀ i, i < (words ++ [""]).length - MARKOV_ORDER →
      (learnObs (words ++ [""])).getD i (("", ""), "") =
        (((words ++ [""]).getD i "", (words ++ [""]).getD (i + 1) ""),
          (words ++ [""]).getD (i + 2) "")) ∧
    ((words ++ [""]).length < MARKOV_ORDER + 1 →
      ∀ chain, onMessageChain chain words = chain) := by
  refine ⟨by simp [learnObs], ?_, ?_⟩
  · intro i hi
    simp [learnObs] at hi ⊢
    simp [List.getElem?_map, List.getElem?_range, hi]
  · intro h chain
    have hlen : words.length + 1 - MARKOV_ORDER = 0 := by
      simp [MARKOV_ORDER] at h ⊢
      omega
    simp [onMessageChain, learnObs, hlen]

/-- C4 (witness): the three-token message `"the cat sat"` (L = 4 with the
sentinel) yields exactly 2 observations at the stated windows, and the
one-token message `"hi"` (L = 2 < 3) leaves the chain store untouched. -/
theorem c4_witness :
    (learnObs (["the", "cat", "sat"] ++ [""])).getD 1 (("", ""), "") =
      (((["the", "cat", "sat"] ++ [""]).getD 1 "",
        (["the", "cat", "sat"] ++ [""]).getD 2 ""),
        (["the", "cat", "sat"] ++ [""]).getD 3 "") ∧
    onMessageChain [(("a", "b"), ["c"])] ["hi"] = [(("a", "b"), ["c"])] :=
  ⟨(c4_learner_coverage ["the", "cat", "sat"]).2.1 1 (by decide),
    (c4_learner_coverage ["hi"]).2.2 (by decide) [(("a", "b"), ["c"])]⟩

/-- The markov.py generation loop appends at most `fuel` tokens. -/
theorem genMarkovLoop_length_le (chain : Chain) (rand : Nat → Nat) :
    ∀ (fuel step : Nat) (text out : List String),
      genMarkovLoop chain rand fuel step text = some out →
      out.length ≤ text.length + fuel := by
  intro fuel
  induction fuel with
  | zero =>
    intro step text out h
    simp [genMarkovLoop] at h
    subst h
    omega
  | succ n ih =>
    intro step text out h
    simp only [genMarkovLoop] at h
    split at h
    · simp at h
      subst h
      omega
    · split at h
      · simp at h
      · have := ih (step + 1) _ out h
        simp at this
        omega

/-- The new_bot.py generation loop appends at most `fuel` tokens. -/
theorem genNewbotLoop_length_le (chain : Chain) (rand : Nat → Nat) :
    ∀ (fuel step : Nat) (text out : List String),
      genNewbotLoop chain rand fuel step text = some out →
      out.length ≤ text.length + fuel := by
  intro fuel
  induction fuel with
  | zero =>
    intro step text out h
    simp [genNewbotLoop] at h
    subst h
    omega
  | succ n ih =>
    intro step text out h
    simp only [genNewbotLoop] at h
    split at h
    · simp at h
      subst h
      omega
    · split at h
      · simp at h
      · split at h
        · simp at h
          subst h
          simp only [List.length_append, List.length_singleton]
          omega
        · have := ih (step + 1) _ out h
          simp at this
          omega

/-- C8.  Generation always terminates within the word budget: in both
variants, whenever the generator returns a token sequence, that sequence has
at most seed length (`MARKOV_ORDER = 2`) plus `maxWords` tokens — the
successor-sampling loop performs at most `maxWords` appends and stops early
on a missed context lookup (or, in the DB variant, on the sentinel). -/
theorem c8_generation_bounded :
    (∀ (chain : Chain) (rand : Nat → Nat) (maxWords : Nat)
        (out : List String),
        generate_markov_toks chain rand maxWords = some out →
        out.length ≤ MARKOV_ORDER + maxWords) ∧
    (∀ (chain : Chain) (rand : Nat → Nat) (maxWords : Nat)
        (out : List String),
        generate_text_toks chain rand maxWords = some out →
        out.length ≤ MARKOV_ORDER + maxWords) := by
  constructor
  · intro chain rand maxWords out h
    unfold generate_markov_toks at h
    split at h
    · simp at h
    · have := genMarkovLoop_length_le chain rand maxWords 1 _ out h
      simpa [MARKOV_ORDER] using this
  · intro chain rand maxWords out h
    unfold generate_text_toks at h
    have := genNewbotLoop_length_le chain rand maxWords 1 _ out h
    simpa [MARKOV_ORDER] using this

/-- C8 (witness): on the one-entry store `{("a","b") ↦ ["c"]}` both
generators return three tokens, within the bound `2 + maxWords`. -/
theorem c8_witness :
    (["a", "b", "c"] : List String).length ≤ MARKOV_ORDER + 1 ∧
    (["a", "b", "c"] : List String).length ≤ MARKOV_ORDER + 2 :=
  ⟨c8_generation_bounded.1 [(("a", "b"), ["c"])] (fun _ => 0) 1
      ["a", "b", "c"] (by decide),
    c8_generation_bounded.2 [(("a", "b"), ["c"])] (fun _ => 0) 2
      ["a", "b", "c"] (by decide)⟩

/-- The invariant of claim C10: every stored context consists of two
non-empty tokens (the sentinel never occurs inside a key). -/
def goodChain (c : Chain) : Prop :=
  ∀ e ∈ c, e.1.1 ≠ "" ∧ e.1.2 ≠ ""

/-- `add_observation` with a sentinel-free key preserves the key invariant
(the observed next token may freely be the sentinel). -/
theorem addObservation_good {c : Chain} {k : Ctx} {nxt : String}
    (hc : goodChain c) (hk : k.1 ≠ "" ∧ k.2 ≠ "") :
    goodChain (addObservation c k nxt) := by
  induction c with
  | nil =>
    intro e he
    simp [addObservation] at he
    subst he
    exact hk
  | cons f rest ih =>
    have hf := hc f (List.mem_cons_self _ _)
    have hrest : goodChain rest := fun x hx => hc x (List.mem_cons_of_mem _ hx)
    intro e he
    simp only [addObservation] at he
    by_cases h : f.1 = k
    · rw [if_pos h] at he
      by_cases hm : nxt ∈ f.2
      · rw [if_pos hm] at he
        rcases List.mem_cons.mp he with rfl | hr
        · exact hf
        · exact hrest e hr
      · rw [if_neg hm] at he
        rcases List.mem_cons.mp he with rfl | hr
        · exact hf
        · exact hrest e hr
    · rw [if_neg h] at he
      rcases List.mem_cons.mp he with rfl | hr
      · exact hf
      · exact ih hrest e hr

/-- Every observation key produced by the learner's windows over
`words ++ [sentinel]` stays strictly before the sentinel, hence is a pair of
input words; with non-empty input words, the key is sentinel-free. -/
theorem learnObs_key_good {words : List String}
    (hw : ∀ w ∈ words, w ≠ "") :
    ∀ o ∈ learnObs (words ++ [""]), o.1.1 ≠ "" ∧ o.1.2 ≠ "" := by
  intro o ho
  simp [learnObs, MARKOV_ORDER] at ho
  obtain ⟨i, hi, rfl⟩ := ho
  have hi1 : i < words.length := by omega
  have hi2 : i + 1 < words.length := by omega
  dsimp only
  constructor
  · rw [List.getElem?_append, if_pos hi1, List.getElem?_eq_getElem hi1]
    simpa using hw _ (List.getElem_mem hi1)
  · rw [List.getElem?_append, if_pos hi2, List.getElem?_eq_getElem hi2]
    simpa using hw _ (List.getElem_mem hi2)

/-- Lookup of a context whose second token is the sentinel always misses a
store satisfying the key invariant. -/
theorem chainLookup_sentinel_none {c : Chain} (hc : goodChain c)
    {k : Ctx} (hk : k.2 = "") : chainLookup c k = none := by
  induction c with
  | nil => rfl
  | cons e rest ih =>
    have he := hc e (by simp)
    have : e.1 ≠ k := by
      intro h
      rw [h, hk] at he
      exact he.2 rfl
    simp [chainLookup, this]
    exact ih fun x hx => hc x (by simp [hx])

/-- Folding a batch of sentinel-free-key observations into a store
satisfying the key invariant preserves it. -/
theorem foldl_addObservation_good :
    ∀ (obs : List (Ctx × String)) (chain : Chain),
      goodChain chain → (∀ o ∈ obs, o.1.1 ≠ "" ∧ o.1.2 ≠ "") →
      goodChain (obs.foldl (fun c o => addObservation c o.1 o.2) chain) := by
  intro obs
  induction obs with
  | nil =>
    intro chain hc _
    exact hc
  | cons o rest ih =>
    intro chain hc hobs
    simp only [List.foldl_cons]
    exact ih _ (addObservation_good hc (hobs o (List.mem_cons_self _ _)))
      (fun x hx => hobs x (List.mem_cons_of_mem _ hx))

/-- C10.  (a) Learning any message whose words are non-empty (as `.split()`
guarantees) preserves the invariant that stored context keys never contain
the sentinel token; (b) consequently, once the generated text ends with the
sentinel, the next context lookup necessarily misses and the markov.py
generation loop stops immediately, returning the text unchanged regardless
of remaining fuel. -/
theorem c10_sentinel_invariant :
    (∀ (chain : Chain) (words : List String),
        (∀ w ∈ words, w ≠ "") → goodChain chain →
        goodChain (onMessageChain chain words)) ∧
    (∀ (chain : Chain) (rand : Nat → Nat) (fuel step : Nat)
        (text : List String),
        goodChain chain → text.getD (text.length - 1) "" = "" →
        genMarkovLoop chain rand (fuel + 1) step text = some text) := by
  constructor
  · intro chain words hw hc
    unfold onMessageChain
    exact foldl_addObservation_good _ chain hc (learnObs_key_good hw)
  · intro chain rand fuel step text hc hlast
    have hmiss : chainLookup chain (lastTwoP text) = none :=
      chainLookup_sentinel_none hc (k := lastTwoP text) hlast
    simp [genMarkovLoop, hmiss]

/-- C10 (witness): learning `"the cat sat"` into an empty store yields a
store with sentinel-free keys, and on the store `{("x","y") ↦ ["z"]}` the
generation loop stops as soon as the text ends with the sentinel. -/
theorem c10_witness :
    goodChain (onMessageChain [] ["the", "cat", "sat"]) ∧
    genMarkovLoop [(("x", "y"), ["z"])] (fun _ => 0) 1 0 ["x", "y", ""] =
      some ["x", "y", ""] :=
  ⟨c10_sentinel_invariant.1 [] ["the", "cat", "sat"] (by decide)
      (by unfold goodChain; decide),
    c10_sentinel_invariant.2 [(("x", "y"), ["z"])] (fun _ => 0) 0 0
      ["x", "y", ""] (by unfold goodChain; decide) (by decide)⟩

/-- A successful `random.choice` returns a member of the list. -/
theorem pyChoice_mem {α} {l : List α} {r : Nat} {a : α}
    (h : pyChoice l r = some a) : a ∈ l :=
  List.get?_mem h

/-- `getD` at the old length of a list extended by one element. -/
theorem getD_concat_length {α} (l : List α) (a d : α) :
    (l ++ [a]).getD l.length d = a := by
  simp [List.getD_eq_getElem?_getD, List.getElem?_concat_length]

/-- The validity predicate of claim C9 from position `b` on: every token at
position `j ≥ b` of `out` was observed as a successor of the 2-token window
that immediately precedes it. -/
def validFrom (chain : Chain) (b : Nat) (out : List String) : Prop :=
  ∀ j, b ≤ j → j < out.length →
    out.getD j "" ∈
      (chainLookup chain (out.getD (j - 2) "", out.getD (j - 1) "")).getD []

/-- Appending a token drawn from the successor list of the last two tokens
preserves the validity predicate. -/
theorem validFrom_append (chain : Chain) (b : Nat) {text : List String}
    {w : String} {ws : List String} (h2 : 2 ≤ text.length)
    (hv : validFrom chain b text)
    (hws : chainLookup chain (lastTwoP text) = some ws) (hw : w ∈ ws) :
    validFrom chain b (text ++ [w]) := by
  intro j hbj hjlt
  rw [List.length_append, List.length_singleton] at hjlt
  rcases Nat.lt_or_ge j text.length with hj | hj
  · have e0 : (text ++ [w]).getD j "" = text.getD j "" :=
      List.getD_append _ _ _ _ hj
    have e1 : (text ++ [w]).getD (j - 1) "" = text.getD (j - 1) "" :=
      List.getD_append _ _ _ _ (by omega)
    have e2 : (text ++ [w]).getD (j - 2) "" = text.getD (j - 2) "" :=
      List.getD_append _ _ _ _ (by omega)
    rw [e0, e1, e2]
    exact hv j hbj hj
  · have hj2 : j = text.length := by omega
    subst hj2
    have e0 : (text ++ [w]).getD text.length "" = w :=
      getD_concat_length _ _ _
    have e1 : (text ++ [w]).getD (text.length - 1) "" =
        text.getD (text.length - 1) "" :=
      List.getD_append _ _ _ _ (by omega)
    have e2 : (text ++ [w]).getD (text.length - 2) "" =
        text.getD (text.length - 2) "" :=
      List.getD_append _ _ _ _ (by omega)
    rw [e0, e1, e2]
    have elast :
        (text.getD (text.length - 2) "", text.getD (text.length - 1) "")
          = lastTwoP text := rfl
    rw [elast, hws]
    simpa using hw

/-- The markov.py generation loop preserves the validity predicate: every
append comes from `random.choice` over the successor list of the last two
tokens. -/
theorem genMarkovLoop_valid (chain : Chain) (rand : Nat → Nat) (b : Nat) :
    ∀ (fuel step : Nat) (text out : List String),
      2 ≤ text.length → validFrom chain b text →
      genMarkovLoop chain rand fuel step text = some out →
      validFrom chain b out := by
  intro fuel
  induction fuel with
  | zero =>
    intro step text out h2 hv h
    simp [genMarkovLoop] at h
    subst h
    exact hv
  | succ n ih =>
    intro step text out h2 hv h
    simp only [genMarkovLoop] at h
    split at h
    · simp at h
      subst h
      exact hv
    · rename_i ws hws
      split at h
      · simp at h
      · rename_i w hw
        exact ih (step + 1) (text ++ [w]) out (by simp; omega)
          (validFrom_append chain b h2 hv hws (pyChoice_mem hw)) h

/-- The new_bot.py generation loop preserves the validity predicate as well:
its extra sentinel stop fires only after the chosen successor has already
been appended from the stored list. -/
theorem genNewbotLoop_valid (chain : Chain) (rand : Nat → Nat) (b : Nat) :
    ∀ (fuel step : Nat) (text out : List String),
      2 ≤ text.length → validFrom chain b text →
      genNewbotLoop chain rand fuel step text = some out →
      validFrom chain b out := by
  intro fuel
  induction fuel with
  | zero =>
    intro step text out h2 hv h
    simp [genNewbotLoop] at h
    subst h
    exact hv
  | succ n ih =>
    intro step text out h2 hv h
    simp only [genNewbotLoop] at h
    split at h
    · simp at h
      subst h
      exact hv
    · rename_i ws hws
      split at h
      · simp at h
      · rename_i w hw
        split at h
        · simp at h
          subst h
          exact validFrom_append chain b h2 hv hws (pyChoice_mem hw)
        · exact ih (step + 1) (text ++ [w]) out (by simp; omega)
            (validFrom_append chain b h2 hv hws (pyChoice_mem hw)) h

/-- C9.  In both variants, every token of a generated sequence after the
2-token seed is a member of the stored successor list of the window that
immediately precedes it: it was observed as a successor of that context in
some learned message. -/
theorem c9_generation_validity :
    (∀ (chain : Chain) (rand : Nat → Nat) (maxWords : Nat)
        (out : List String),
        generate_markov_toks chain rand maxWords = some out →
        ∀ j, MARKOV_ORDER ≤ j → j < out.length →
          out.getD j "" ∈
            (chainLookup chain
              (out.getD (j - 2) "", out.getD (j - 1) "")).getD []) ∧
    (∀ (chain : Chain) (rand : Nat → Nat) (maxWords : Nat)
        (out : List String),
        generate_text_toks chain rand maxWords = some out →
        ∀ j, MARKOV_ORDER ≤ j → j < out.length →
          out.getD j "" ∈
            (chainLookup chain
              (out.getD (j - 2) "", out.getD (j - 1) "")).getD []) := by
  constructor
  · intro chain rand maxWords out h
    unfold generate_markov_toks at h
    split at h
    · simp at h
    · rename_i k hk
      have hseed : validFrom chain 2 [k.1, k.2] := by
        intro j hbj hjlt
        simp at hjlt
        omega
      have hval :=
        genMarkovLoop_valid chain rand 2 maxWords 1 [k.1, k.2] out (by simp)
          hseed h
      intro j hbj hjlt
      exact hval j (by simpa [MARKOV_ORDER] using hbj) hjlt
  · intro chain rand maxWords out h
    unfold generate_text_toks at h
    have hseed : validFrom chain 2
        [(get_random_key chain (rand 0)).1,
          (get_random_key chain (rand 0)).2] := by
      intro j hbj hjlt
      simp at hjlt
      omega
    have hval :=
      genNewbotLoop_valid chain rand 2 maxWords 1
        [(get_random_key chain (rand 0)).1, (get_random_key chain (rand 0)).2]
        out (by simp) hseed h
    intro j hbj hjlt
    exact hval j (by simpa [MARKOV_ORDER] using hbj) hjlt

/-- C9 (witness): on the store `{("a","b") ↦ ["c"]}` the JSON generator
emits `["a","b","c"]`, and on `{("x","y") ↦ ["z"]}` the DB generator emits
`["x","y","z"]`; in each case the token at position 2 is a stored successor
of the preceding window. -/
theorem c9_witness :
    (["a", "b", "c"] : List String).getD 2 "" ∈
      (chainLookup [(("a", "b"), ["c"])]
        ((["a", "b", "c"] : List String).getD (2 - 2) "",
          (["a", "b", "c"] : List String).getD (2 - 1) "")).getD [] ∧
    (["x", "y", "z"] : List String).getD 2 "" ∈
      (chainLookup [(("x", "y"), ["z"])]
        ((["x", "y", "z"] : List String).getD (2 - 2) "",
          (["x", "y", "z"] : List String).getD (2 - 1) "")).getD [] :=
  ⟨c9_generation_validity.1 [(("a", "b"), ["c"])] (fun _ => 0) 1
      ["a", "b", "c"] (by decide) 2 (by decide) (by decide),
    c9_generation_validity.2 [(("x", "y"), ["z"])] (fun _ => 0) 2
      ["x", "y", "z"] (by decide) 2 (by decide) (by decide)⟩

/-- C7 (counterexample).  In markov.py the output is joined with spaces but
NOT trimmed: on the store `{("a","b") ↦ [""]}` (as learned from the message
`"a b"`), generation chooses the sentinel and returns `"a b "` — a string
that ends with a space, contradicting the claimed trimming. -/
theorem c7_counterexample :
    generate_markov_text [(("a", "b"), [""])] (fun _ => 0) 100 =
      some "a b " ∧
    ("a b ").toList.getLast? = some ' ' := by
  constructor
  · decide
  · decide

/-- The element surviving at the head of a `dropWhile` fails the predicate. -/
theorem head?_dropWhile_false {α} (p : α → Bool) :
    ∀ (l : List α) (a : α), (l.dropWhile p).head? = some a → p a = false := by
  intro l
  induction l with
  | nil =>
    intro a h
    simp [List.dropWhile] at h
  | cons x xs ih =>
    intro a h
    rw [List.dropWhile_cons] at h
    by_cases hx : p x = true
    · rw [if_pos hx] at h
      exact ih a h
    · rw [if_neg hx] at h
      simp at h
      subst h
      simpa using hx

/-- `str.strip()` never leaves a whitespace character at the end. -/
theorem pyStrip_getLast_not_space (s : String) (c : Char)
    (h : (pyStrip s).toList.getLast? = some c) : isPySpace c = false := by
  have h2 : (pyStripChars s.toList).getLast? = some c := h
  unfold pyStripChars at h2
  rw [List.getLast?_reverse] at h2
  exact head?_dropWhile_false _ _ _ h2

/-- C7 (amended).  The DB variant (`generate_text`, new_bot.py) satisfies the
claim: every returned string is the output token sequence joined with single
spaces and stripped of surrounding whitespace — in particular it never ends
with a space (the trailing sentinel's space is removed by `.strip()`).  The
JSON variant (`generate_markov_text`, markov.py) returns the raw join
without trimming and can end with a space (see the counterexample). -/
theorem c7_join_strip (chain : Chain) (rand : Nat → Nat) (maxWords : Nat)
    (out : String) (h : generate_text chain rand maxWords = some out) :
    (∃ toks : List String, out = pyStrip (String.intercalate " " toks)) ∧
    ∀ c, out.toList.getLast? = some c → isPySpace c = false := by
  unfold generate_text at h
  cases ht : generate_text_toks chain rand maxWords with
  | none =>
    rw [ht] at h
    simp at h
  | some toks =>
    rw [ht] at h
    simp at h
    constructor
    · exact ⟨toks, h.symm⟩
    · intro c hc
      rw [← h] at hc
      exact pyStrip_getLast_not_space _ _ hc

/-- C7 (witness): on the store `{("a","b") ↦ ["c"]}` the DB generator
returns `"a b c"`, which is a stripped join and ends with no space. -/
theorem c7_witness :
    (∃ toks : List String,
      "a b c" = pyStrip (String.intercalate " " toks)) ∧
    ∀ c, ("a b c").toList.getLast? = some c → isPySpace c = false :=
  c7_join_strip [(("a", "b"), ["c"])] (fun _ => 0) 2 "a b c" (by decide)

/-- C6 (counterexample).  The markov.py stats query does NOT report a
variability of 0 on an empty chain store: `chain_size/total_words` divides
by `len(markov_chain) = 0` and raises `ZeroDivisionError` (modelled
`none`). -/
theorem c6_counterexample : wisdom [] 0 0 = none := rfl

/-- The quote chosen by `repr` is one of the two quote characters. -/
theorem quoteFor_cases (s : List Char) :
    quoteFor s = '\'' ∨ quoteFor s = '"' := by
  unfold quoteFor
  by_cases h : '\'' ∈ s ∧ ¬ ('"' ∈ s)
  · rw [if_pos h]
    exact Or.inr rfl
  · rw [if_neg h]
    exact Or.inl rfl

/-- Counting a character distributes over append. -/
theorem countChar_append (c : Char) (a b : List Char) :
    countChar c (a ++ b) = countChar c a + countChar c b := by
  simp [countChar, List.filter_append]

/-- Escaping a non-comma character introduces no commas. -/
theorem countChar_escChar (q c : Char) (hc : c ≠ ',') :
    countChar ',' (escChar q c) = 0 := by
  unfold escChar
  split_ifs <;> simp [countChar, List.filter_cons, hc]

/-- The escaped body of a comma-free string is comma-free. -/
theorem countChar_escBody (q : Char) (s : List Char)
    (hs : ∀ c ∈ s, c ≠ ',') : countChar ',' (escBody q s) = 0 := by
  induction s with
  | nil => rfl
  | cons c cs ih =>
    rw [show escBody q (c :: cs) = escChar q c ++ escBody q cs from rfl,
      countChar_append, countChar_escChar q c (hs c (List.mem_cons_self _ _)),
      ih (fun x hx => hs x (List.mem_cons_of_mem _ hx))]

/-- The `repr` of a comma-free string contains no commas. -/
theorem countChar_pyReprStr (t : List Char) (ht : ∀ c ∈ t, c ≠ ',') :
    countChar ',' (pyReprStrChars t) = 0 := by
  have hq := quoteFor_cases t
  have hqc : quoteFor t ≠ ',' := by
    rcases hq with h | h <;> rw [h] <;> decide
  rw [show pyReprStrChars t =
      [quoteFor t] ++ (escBody (quoteFor t) t ++ [quoteFor t]) from rfl,
    countChar_append, countChar_append, countChar_escBody _ _ ht]
  simp [countChar, List.filter_cons, hqc]

/-- The serialized join of `n ≥ 1` comma-free successor tokens contains
exactly `n − 1` commas (the separators). -/
theorem countChar_reprJoin (l : List String)
    (h : ∀ t ∈ l, ∀ c ∈ t.toList, c ≠ ',') :
    countChar ',' (reprJoin l) = l.length - 1 := by
  induction l with
  | nil => rfl
  | cons t ts ih =>
    cases ts with
    | nil => exact countChar_pyReprStr _ (h t (List.mem_cons_self _ _))
    | cons u us =>
      rw [show reprJoin (t :: u :: us) =
          pyReprStrChars t.toList ++ (',' :: ' ' :: reprJoin (u :: us))
          from rfl,
        countChar_append, countChar_pyReprStr _ (h t (List.mem_cons_self _ _))]
      have hsep : countChar ',' (',' :: ' ' :: reprJoin (u :: us)) =
          countChar ',' (reprJoin (u :: us)) + 1 := by
        simp [countChar, List.filter_cons]
      rw [hsep, ih (fun x hx => h x (List.mem_cons_of_mem _ hx))]
      simp

/-- The SQL per-row comma count plus one equals the successor-list length
exactly when the list is non-empty and its tokens are comma-free. -/
theorem chain_size_row (l : List String) (hne : l ≠ [])
    (h : ∀ t ∈ l, ∀ c ∈ t.toList, c ≠ ',') :
    countChar ',' (pyReprListChars l) + 1 = l.length := by
  have h1 : countChar ',' (pyReprListChars l) = countChar ',' (reprJoin l) := by
    rw [show pyReprListChars l = ['['] ++ (reprJoin l ++ [']']) from rfl,
      countChar_append, countChar_append]
    simp [countChar, List.filter_cons]
  rw [h1, countChar_reprJoin l h]
  have h2 : 1 ≤ l.length := List.length_pos.mpr hne
  omega

/-- The DB `chain_size` aggregate agrees with the sum of successor-list
lengths exactly on stores whose lists are non-empty (as `build_markov_chain`
creates them) with comma-free tokens. -/
theorem chain_size_db_eq (chain : Chain)
    (h : ∀ e ∈ chain, e.2 ≠ [] ∧ ∀ t ∈ e.2, ∀ c ∈ t.toList, c ≠ ',') :
    chain_size_db chain = (chain.map (fun e => e.2.length)).sum := by
  induction chain with
  | nil => rfl
  | cons e rest ih =>
    have hrow := chain_size_row e.2 (h e (List.mem_cons_self _ _)).1
      (h e (List.mem_cons_self _ _)).2
    have hrest := ih (fun x hx => h x (List.mem_cons_of_mem _ hx))
    simp only [chain_size_db, List.map_cons, List.sum_cons] at hrest ⊢
    omega

/-- C6 (amended).  For a chain store with distinct keys (every dict state):
the JSON variant's stats query reports context_count = the number of
distinct contexts, total_successor_count = the sum of successor-list
lengths, and variability = total_successor_count / context_count when the
store is non-empty, but raises `ZeroDivisionError` (not 0) when
context_count = 0; the DB variant guards the empty case (variability 0),
but computes total_successor_count by counting comma-separated segments of
each serialized successor list — equal to the sum of successor-list lengths
whenever every stored list is non-empty with comma-free tokens, and an
overcount otherwise (a single stored successor `"c,d"` is reported as 2). -/
theorem c6_stats :
    (∀ (chain : Chain) (total gen : Nat),
        (chain.map (fun e => e.1)).Nodup → chain ≠ [] →
        wisdom chain total gen =
          some (total, gen, ((chain.map (fun e => e.1)).dedup).length,
            (chain.map (fun e => e.2.length)).sum,
            ((chain.map (fun e => e.2.length)).sum : ℚ) /
              (chain.length : ℚ))) ∧
    (∀ (chain : Chain) (total gen : Nat),
        (chain.map (fun e => e.1)).Nodup →
        (∀ e ∈ chain, e.2 ≠ [] ∧ ∀ t ∈ e.2, ∀ c ∈ t.toList, c ≠ ',') →
        wisdom_command chain total gen =
          (total, gen, ((chain.map (fun e => e.1)).dedup).length,
            (chain.map (fun e => e.2.length)).sum,
            if 0 < chain.length then
              ((((chain.map (fun e => e.2.length)).sum : ℕ)) : ℚ) /
                (chain.length : ℚ)
            else 0)) ∧
    (chain_size_db [(("a", "b"), ["c,d"])] = 2 ∧
      (([(("a", "b"), ["c,d"])] : Chain).map (fun e => e.2.length)).sum
        = 1) := by
  refine ⟨?_, ?_, by decide, by decide⟩
  · intro chain total gen hnd hne
    have hlen : chain.length ≠ 0 := by
      simpa [List.length_eq_zero] using hne
    have hdd : ((chain.map (fun e => e.1)).dedup).length = chain.length := by
      rw [List.Nodup.dedup hnd, List.length_map]
    rw [wisdom]
    simp [hlen, hdd]
    congr 1
  · intro chain total gen hnd hfree
    have hdd : ((chain.map (fun e => e.1)).dedup).length = chain.length := by
      rw [List.Nodup.dedup hnd, List.length_map]
    rw [wisdom_command, chain_size_db_eq chain hfree, hdd]

/-- C6 (witness): on the store `{("a","b") ↦ ["c","d"]}` with counters 5
and 7 both variants report (5, 7, 1 context, 2 successors, 2/1), and on the
empty store the DB variant reports variability 0. -/
theorem c6_witness :
    wisdom [(("a", "b"), ["c", "d"])] 5 7 =
      some (5, 7,
        (([(("a", "b"), ["c", "d"])] : Chain).map (fun e => e.1)).dedup.length,
        (([(("a", "b"), ["c", "d"])] : Chain).map (fun e => e.2.length)).sum,
        ((([(("a", "b"), ["c", "d"])] : Chain).map
            (fun e => e.2.length)).sum : ℚ) /
          (([(("a", "b"), ["c", "d"])] : Chain).length : ℚ)) ∧
    wisdom_command [(("a", "b"), ["c", "d"])] 5 7 =
      (5, 7,
        (([(("a", "b"), ["c", "d"])] : Chain).map (fun e => e.1)).dedup.length,
        (([(("a", "b"), ["c", "d"])] : Chain).map (fun e => e.2.length)).sum,
        if 0 < ([(("a", "b"), ["c", "d"])] : Chain).length then
          (((([(("a", "b"), ["c", "d"])] : Chain).map
              (fun e => e.2.length)).sum : ℕ) : ℚ) /
            (([(("a", "b"), ["c", "d"])] : Chain).length : ℚ)
        else 0) ∧
    wisdom_command [] 0 0 =
      (0, 0, (([] : Chain).map (fun e => e.1)).dedup.length,
        (([] : Chain).map (fun e => e.2.length)).sum,
        if 0 < ([] : Chain).length then
          (((([] : Chain).map (fun e => e.2.length)).sum : ℕ) : ℚ) /
            (([] : Chain).length : ℚ)
        else 0) :=
  ⟨c6_stats.1 [(("a", "b"), ["c", "d"])] 5 7 (by decide) (by decide),
    c6_stats.2.1 [(("a", "b"), ["c", "d"])] 5 7 (by decide) (by decide),
    c6_stats.2.1 [] 0 0 (by decide) (by decide)⟩

/-- Reading back an escaped body delimited by a quote character recovers the
body exactly and stops at the closing quote. -/
theorem unesc_escBody {q : Char} (hq : q = '\'' ∨ q = '"') :
    ∀ (s rest : List Char), unesc q (escBody q s ++ (q :: rest)) =
      some (s, rest) := by
  have hbq : ¬('\\' = q) := by
    rcases hq with h | h <;> rw [h] <;> decide
  have hqn : q ≠ 'n' ∧ q ≠ 'r' ∧ q ≠ 't' := by
    rcases hq with h | h <;> rw [h] <;> exact ⟨by decide, by decide, by decide⟩
  intro s
  induction s with
  | nil =>
    intro rest
    have h0 : escBody q [] ++ (q :: rest) = q :: rest := rfl
    rw [h0, unesc.eq_def]
    simp
  | cons c cs ih =>
    intro rest
    show unesc q ((escChar q c ++ escBody q cs) ++ (q :: rest)) =
      some (c :: cs, rest)
    rw [List.append_assoc]
    by_cases h1 : c = '\\' ∨ c = q
    · have hesc : escChar q c = ['\\', c] := by
        unfold escChar
        rw [if_pos h1]
      rw [hesc]
      have hcn : c ≠ 'n' ∧ c ≠ 'r' ∧ c ≠ 't' := by
        rcases h1 with h | h
        · rw [h]
          exact ⟨by decide, by decide, by decide⟩
        · rw [h]
          exact hqn
      simp [unesc, hbq, hcn.1, hcn.2.1, hcn.2.2, ih rest]
    · by_cases h2 : c = '\n'
      · have hesc : escChar q c = ['\\', 'n'] := by
          unfold escChar
          rw [if_neg h1, if_pos h2]
        rw [hesc, h2]
        simp [unesc, hbq, ih rest]
      · by_cases h3 : c = '\r'
        · have hesc : escChar q c = ['\\', 'r'] := by
            unfold escChar
            rw [if_neg h1, if_neg h2, if_pos h3]
          rw [hesc, h3]
          simp [unesc, hbq, ih rest]
        · by_cases h4 : c = '\t'
          · have hesc : escChar q c = ['\\', 't'] := by
              unfold escChar
              rw [if_neg h1, if_neg h2, if_neg h3, if_pos h4]
            rw [hesc, h4]
            simp [unesc, hbq, ih rest]
          · have hesc : escChar q c = [c] := by
              unfold escChar
              rw [if_neg h1, if_neg h2, if_neg h3, if_neg h4]
            rw [hesc]
            have hcq : ¬(c = q) := fun h => h1 (Or.inr h)
            have hcb : ¬(c = '\\') := fun h => h1 (Or.inl h)
            have h0 : [c] ++ (escBody q cs ++ (q :: rest)) =
                c :: (escBody q cs ++ (q :: rest)) := rfl
            rw [h0, unesc.eq_def]
            simp [hcq, hcb, ih rest]

/-- Reading a full Python string literal produced by `repr` recovers the
original string and leaves the trailing input untouched. -/
theorem parseLit_pyReprStr (s rest : List Char) :
    parseLit (pyReprStrChars s ++ rest) = some (s, rest) := by
  have hq := quoteFor_cases s
  show parseLit (quoteFor s ::
    ((escBody (quoteFor s) s ++ [quoteFor s]) ++ rest)) = some (s, rest)
  rw [List.append_assoc, List.singleton_append]
  rw [parseLit.eq_def]
  simp [hq, unesc_escBody hq s rest]

/-- `eval(str(key))` recovers a 2-tuple key exactly (character level). -/
theorem pyEvalPairChars_pyReprPairChars (a b : List Char) :
    pyEvalPairChars (pyReprPairChars a b) = some (a, b) := by
  unfold pyReprPairChars
  rw [pyEvalPairChars.eq_def]
  simp [parseLit_pyReprStr]

/-- `eval(str(key))` recovers a 2-tuple key exactly (string level). -/
theorem pyEvalPair_pyReprPair (k : Ctx) : pyEvalPair (pyReprPair k) = some k := by
  unfold pyEvalPair pyReprPair
  have h1 : (String.mk (pyReprPairChars k.1.toList k.2.toList)).toList =
      pyReprPairChars k.1.toList k.2.toList := rfl
  rw [h1, pyEvalPairChars_pyReprPairChars]
  rfl

/-- C3.  Round-trip fidelity of persistence: for every Model, loading the
snapshot written by `save_markov_chain` yields exactly the Model saved —
the same context keys in the same order (with the sentinel distinguished
from absence, since `repr`'s quoting is lossless), the same successor list
for every context, and the same two counter values. -/
theorem c3_save_load_roundtrip (m : Model) :
    load_markov_chain (save_markov_chain m) = some m := by
  unfold load_markov_chain save_markov_chain
  have hchain : (m.chain.map (fun e => (pyReprPair e.1, e.2))).mapM
      (fun e => (pyEvalPair e.1).map (fun k => (k, e.2))) = some m.chain := by
    induction m.chain with
    | nil => rfl
    | cons e c ih =>
      simp only [List.map_cons, List.mapM_cons, pyEvalPair_pyReprPair, ih]
      rfl
  rw [hchain]

end MudretsBot
